import Mathlib

/-!
Verification development for the ScribeAgent Notion content-retrieval
subsystem.  The Python source under `src/scribeagent` is shallowly embedded:

* JSON values are modelled by the inductive `Json`;
* Python runtime exceptions (`ValueError`, `KeyError`, `AttributeError`,
  `TypeError`, `NotImplementedError`, HTTP errors from
  `requests.raise_for_status`) are modelled by `PyError`, and fallible code
  returns `Except PyError _`;
* `datetime.fromisoformat` is not re-implemented: timestamps are kept as the
  normalized ISO string (after the source's `.replace("Z", "+00:00")`); the
  string must be present, mirroring the `AttributeError` the source raises
  when the field is absent, but format validation is elided (no claim
  concerns timestamp syntax);
* the repository's unbounded `while` pagination loop and the service's
  recursive tree walk are modelled with an explicit fuel parameter; running
  out of fuel yields the distinguished error `PyError.outOfFuel`, which no
  Python code path produces, so theorems can quantify over fuel or assume
  enough of it.
-/

/-- Model of the Python exceptions the embedded code can raise.  `httpError`
carries the HTTP status from `requests.Response.raise_for_status`;
`outOfFuel` is a modelling device for unbounded loops (no source analogue). -/
inductive PyError where
  | valueError (msg : String)
  | keyError (msg : String)
  | attributeError (msg : String)
  | typeError (msg : String)
  | notImplementedError (msg : String)
  | httpError (status : Nat)
  | outOfFuel
deriving DecidableEq, Repr

/-- JSON values (Python dicts are association lists in field order). -/
inductive Json where
  | null
  | bool (b : Bool)
  | num (n : Int)
  | str (s : String)
  | arr (items : List Json)
  | obj (fields : List (String × Json))

namespace Json

/-- Python truthiness of a JSON value (`bool(x)`). -/
def truthy : Json → Bool
  | .null => false
  | .bool b => b
  | .num n => n != 0
  | .str s => !s.isEmpty
  | .arr items => !items.isEmpty
  | .obj fields => !fields.isEmpty

/-- First binding of a key in an object, if any. -/
def lookupField (k : String) : List (String × Json) → Option Json
  | [] => none
  | (k2, v) :: rest => if k2 = k then some v else lookupField k rest

/-- `d.get(k, default)`: `AttributeError` unless `d` is a dict. -/
def pyGetD (j : Json) (k : String) (default : Json) : Except PyError Json :=
  match j with
  | .obj fields =>
    match lookupField k fields with
    | some v => .ok v
    | none => .ok default
  | _ => .error (.attributeError k)

/-- `d.get(k)`: missing keys give Python `None`, i.e. `Json.null`. -/
def pyGet (j : Json) (k : String) : Except PyError Json :=
  pyGetD j k .null

/-- `d[k]`: `KeyError` when the key is missing, `TypeError` on a non-dict. -/
def pyIndex (j : Json) (k : String) : Except PyError Json :=
  match j with
  | .obj fields =>
    match lookupField k fields with
    | some v => .ok v
    | none => .error (.keyError k)
  | _ => .error (.typeError k)

/-- `for x in v` over a JSON array; other shapes are rejected (the source
only ever iterates arrays here). -/
def asList (j : Json) : Except PyError (List Json) :=
  match j with
  | .arr items => .ok items
  | _ => .error (.typeError "not iterable")

/-- `str.replace(old, new)` for a one-character `old` (the only shape the
source uses: `.replace("Z", "+00:00")`). -/
def replaceChar (old : Char) (new : List Char) : List Char → List Char
  | [] => []
  | c :: rest => if c = old then new ++ replaceChar old new rest else c :: replaceChar old new rest

/-- `str.replace("Z", "+00:00")` applied to a JSON string; `AttributeError`
on any other value (the source calls `.replace` on the raw field). -/
def normTime (j : Json) : Except PyError String :=
  match j with
  | .str s => .ok ⟨replaceChar 'Z' "+00:00".data s.data⟩
  | _ => .error (.attributeError "replace")

end Json

/-! ### Python string helpers (over `List Char`) -/

/-- `str.split(sep)` for a one-character separator, Python semantics:
`splitChars c "a--b" = ["a", "", "b"]`, `splitChars c "" = [""]`. -/
def splitChars (sep : Char) : List Char → List (List Char)
  | [] => [[]]
  | c :: rest =>
    let r := splitChars sep rest
    if c = sep then [] :: r
    else
      match r with
      | [] => [[c]]
      | h :: t => (c :: h) :: t

/-- Split at the first occurrence of `sep`: the part before it and, when the
separator occurs, the part after it. -/
def splitOnceChars (sep : Char) : List Char → List Char × Option (List Char)
  | [] => ([], none)
  | c :: rest =>
    if c = sep then ([], some rest)
    else
      let (pre, post) := splitOnceChars sep rest
      (c :: pre, post)

/-- `str.strip(ch)`: drop every leading and trailing occurrence of `ch`. -/
def stripChars (ch : Char) (cs : List Char) : List Char :=
  ((cs.dropWhile (· = ch)).reverse.dropWhile (· = ch)).reverse

/-- Substring containment, Python `needle in hay` (two string arguments). -/
def containsSub (needle : List Char) : List Char → Bool
  | [] => needle.isEmpty
  | c :: rest => needle.isPrefixOf (c :: rest) || containsSub needle rest

/-- String wrapper for `containsSub`. -/
def strIn (needle hay : String) : Bool :=
  containsSub needle.data hay.data

/-- `str.lower()` (ASCII case folding, as the source's inputs use). -/
def strLower (s : String) : String :=
  ⟨s.data.map Char.toLower⟩

/-- `s.split(sep)[0]` (take the part before the first `sep`). -/
def beforeFirst (sep : Char) (s : String) : String :=
  ⟨(splitOnceChars sep s.data).1⟩

/-! ### Enums (`scribeagent/domain/notion/enums.py`) -/

/-- `NotionObjectType` enum. -/
inductive NotionObjectType where
  | page | database | block | user | richText | propertyItem
deriving DecidableEq, Repr

/-- `BlockType` enum. -/
inductive BlockType where
  | paragraph | heading1 | heading2 | heading3
  | bulletedListItem | numberedListItem | toDo
  | toggle | code | childPage | childDatabase | embed
  | image | video | file | pdf | bookmark | callout
  | quote | equation | divider | tableOfContents
  | column | columnList | linkPreview | syncedBlock
  | template | linkToPage | table | tableRow | unsupported
deriving DecidableEq, Repr

namespace BlockType

/-- `BlockType(value)` on a JSON value: `some` exactly on the literal tag
strings enumerated in the source, `none` where Python raises `ValueError`. -/
def ofValue : Json → Option BlockType
  | .str "paragraph" => some .paragraph
  | .str "heading_1" => some .heading1
  | .str "heading_2" => some .heading2
  | .str "heading_3" => some .heading3
  | .str "bulleted_list_item" => some .bulletedListItem
  | .str "numbered_list_item" => some .numberedListItem
  | .str "to_do" => some .toDo
  | .str "toggle" => some .toggle
  | .str "code" => some .code
  | .str "child_page" => some .childPage
  | .str "child_database" => some .childDatabase
  | .str "embed" => some .embed
  | .str "image" => some .image
  | .str "video" => some .video
  | .str "file" => some .file
  | .str "pdf" => some .pdf
  | .str "bookmark" => some .bookmark
  | .str "callout" => some .callout
  | .str "quote" => some .quote
  | .str "equation" => some .equation
  | .str "divider" => some .divider
  | .str "table_of_contents" => some .tableOfContents
  | .str "column" => some .column
  | .str "column_list" => some .columnList
  | .str "link_preview" => some .linkPreview
  | .str "synced_block" => some .syncedBlock
  | .str "template" => some .template
  | .str "link_to_page" => some .linkToPage
  | .str "table" => some .table
  | .str "table_row" => some .tableRow
  | .str "unsupported" => some .unsupported
  | _ => none

/-- `block_type.value`: the literal tag string of the enum member. -/
def toTag : BlockType → String
  | .paragraph => "paragraph"
  | .heading1 => "heading_1"
  | .heading2 => "heading_2"
  | .heading3 => "heading_3"
  | .bulletedListItem => "bulleted_list_item"
  | .numberedListItem => "numbered_list_item"
  | .toDo => "to_do"
  | .toggle => "toggle"
  | .code => "code"
  | .childPage => "child_page"
  | .childDatabase => "child_database"
  | .embed => "embed"
  | .image => "image"
  | .video => "video"
  | .file => "file"
  | .pdf => "pdf"
  | .bookmark => "bookmark"
  | .callout => "callout"
  | .quote => "quote"
  | .equation => "equation"
  | .divider => "divider"
  | .tableOfContents => "table_of_contents"
  | .column => "column"
  | .columnList => "column_list"
  | .linkPreview => "link_preview"
  | .syncedBlock => "synced_block"
  | .template => "template"
  | .linkToPage => "link_to_page"
  | .table => "table"
  | .tableRow => "table_row"
  | .unsupported => "unsupported"

end BlockType

/-- `PropertyType` enum. -/
inductive PropertyType where
  | title | richText | number | select | multiSelect | date
  | people | files | checkbox | url | email | phoneNumber
  | formula | relation | rollup | createdTime | createdBy
  | lastEditedTime | lastEditedBy | status
deriving DecidableEq, Repr

namespace PropertyType

/-- `PropertyType(value)` on a JSON value: `some` exactly on recognized tag
strings, `none` where Python raises `ValueError`. -/
def ofValue : Json → Option PropertyType
  | .str "title" => some .title
  | .str "rich_text" => some .richText
  | .str "number" => some .number
  | .str "select" => some .select
  | .str "multi_select" => some .multiSelect
  | .str "date" => some .date
  | .str "people" => some .people
  | .str "files" => some .files
  | .str "checkbox" => some .checkbox
  | .str "url" => some .url
  | .str "email" => some .email
  | .str "phone_number" => some .phoneNumber
  | .str "formula" => some .formula
  | .str "relation" => some .relation
  | .str "rollup" => some .rollup
  | .str "created_time" => some .createdTime
  | .str "created_by" => some .createdBy
  | .str "last_edited_time" => some .lastEditedTime
  | .str "last_edited_by" => some .lastEditedBy
  | .str "status" => some .status
  | _ => none

end PropertyType

/-! ### Rich text (`value_objects.py`, `RichTextContent`) -/

/-- `RichTextContent` dataclass.  Field values are kept as raw JSON, exactly
as the dynamically typed source stores them. -/
structure RichTextContent where
  content : Json
  plain_text : Json
  annotations : Json
  href : Json

namespace RichTextContent

/-- Translation of one loop iteration of `RichTextContent.from_api`:
`none` when the item's `type` is not `"text"` (the item is skipped),
the constructed value when it is, an error where Python raises. -/
def fromApiItem (item : Json) : Except PyError (Option RichTextContent) := do
  let t ← item.pyIndex "type"
  match t with
  | .str "text" =>
    let text ← item.pyIndex "text"
    let content ← text.pyGetD "content" (.str "")
    let plain ← item.pyGetD "plain_text" content
    let annotations ← item.pyGet "annotations"
    let href ← item.pyGet "href"
    pure (some ⟨content, plain, annotations, href⟩)
  | _ => pure none

/-- The `for item in data` loop of `RichTextContent.from_api`, appending to
the accumulated `result` list. -/
def fromApiLoop : List Json → List RichTextContent → Except PyError (List RichTextContent)
  | [], acc => .ok acc
  | item :: rest, acc => do
    match ← fromApiItem item with
    | some rtc => fromApiLoop rest (acc ++ [rtc])
    | none => fromApiLoop rest acc

/-- `RichTextContent.from_api(data)`: iterate the array, keeping only items
tagged `"text"`, in order. -/
def fromApi (data : Json) : Except PyError (List RichTextContent) := do
  let items ← data.asList
  fromApiLoop items []

end RichTextContent

/-- `''.join(text.plain_text for text in ...)`: concatenation succeeds only
when every `plain_text` is a string (Python `str.join` raises `TypeError`
otherwise). -/
def joinPlainTexts (rts : List RichTextContent) : Except PyError String :=
  rts.foldlM (fun acc rt =>
    match rt.plain_text with
    | .str s => .ok (acc ++ s)
    | _ => .error (.typeError "join")) ""

/-! ### Property values (`value_objects.py`) -/

/-- `PropertyValue` and its three typed subclasses.  The source defines no
other subclass: every other tag makes `PropertyValue.from_api` raise
`NotImplementedError`. -/
inductive PropertyValue where
  | titleProp (id : Json) (ptype : PropertyType) (title : List RichTextContent)
  | richTextProp (id : Json) (ptype : PropertyType) (rich_text : List RichTextContent)
  | checkboxProp (id : Json) (ptype : PropertyType) (checkbox : Json)

namespace PropertyValue

/-- The `type` field of a property value. -/
def ptype : PropertyValue → PropertyType
  | .titleProp _ t _ => t
  | .richTextProp _ t _ => t
  | .checkboxProp _ t _ => t

/-- `get_plain_text()`: defined on the title and rich-text subclasses; the
checkbox subclass has no such method (`AttributeError`). -/
def getPlainText : PropertyValue → Except PyError String
  | .titleProp _ _ rts => joinPlainTexts rts
  | .richTextProp _ _ rts => joinPlainTexts rts
  | .checkboxProp _ _ _ => .error (.attributeError "get_plain_text")

/-- `PropertyValue.from_api(id, data)`: dispatch on `data.get("type")`; an
enum-unparseable tag raises (the `try`/`except ValueError` re-raises as
`NotImplementedError`), and every recognized tag other than `title`,
`rich_text`, `checkbox` hits the final `raise NotImplementedError`. -/
def fromApi (id : Json) (data : Json) : Except PyError PropertyValue := do
  let t ← data.pyGet "type"
  match PropertyType.ofValue t with
  | none => .error (.notImplementedError "Property type not implemented")
  | some pt =>
    match pt with
    | .title => do
      let titleData ← data.pyGetD "title" (.arr [])
      let rts ← RichTextContent.fromApi titleData
      pure (.titleProp id .title rts)
    | .richText => do
      let rtData ← data.pyGetD "rich_text" (.arr [])
      let rts ← RichTextContent.fromApi rtData
      pure (.richTextProp id .richText rts)
    | .checkbox => do
      let cb ← data.pyGetD "checkbox" (.bool false)
      pure (.checkboxProp id .checkbox cb)
    | _ => .error (.notImplementedError "Property type not implemented")

end PropertyValue

/-- `Parent` value object. -/
structure Parent where
  ptype : Json
  id : Json

/-- `Parent.from_api(data)`. -/
def Parent.fromApi (data : Json) : Except PyError Parent := do
  let pt ← data.pyGet "type"
  let pid ←
    match pt with
    | .str "page_id" => data.pyGet "page_id"
    | .str "database_id" => data.pyGet "database_id"
    | .str "block_id" => data.pyGet "block_id"
    | _ => pure Json.null
  pure ⟨pt, pid⟩

/-! ### Page entity (`entities.py`) -/

/-- `Page` dataclass; `properties` keeps dict insertion order. -/
structure Page where
  id : Json
  object_type : NotionObjectType
  parent : Parent
  properties : List (String × PropertyValue)
  url : Json
  created_time : String
  last_edited_time : String
  archived : Json

namespace Page

/-- `Page.from_api(data)`: builds each property through
`PropertyValue.from_api(value.get("id"), value)` before constructing the
page itself. -/
def fromApi (data : Json) : Except PyError Page := do
  let rawProperties ← data.pyGetD "properties" (.obj [])
  let fields ←
    match rawProperties with
    | .obj fs => pure fs
    | _ => .error (.attributeError "items")
  let properties ← fields.foldlM (fun acc kv => do
    let pid ← kv.2.pyGet "id"
    let pv ← PropertyValue.fromApi pid kv.2
    pure (acc ++ [(kv.1, pv)])) []
  let id ← data.pyGet "id"
  let parent ← Parent.fromApi (← data.pyGetD "parent" (.obj []))
  let url ← data.pyGetD "url" (.str "")
  let ct ← Json.normTime (← data.pyGet "created_time")
  let lt ← Json.normTime (← data.pyGet "last_edited_time")
  let ar ← data.pyGetD "archived" (.bool false)
  pure ⟨id, .page, parent, properties, url, ct, lt, ar⟩

/-- `get_title()`: plain text of the first property whose type is TITLE,
empty string when none exists. -/
def getTitle (p : Page) : Except PyError String :=
  match p.properties.find? (fun kv => kv.2.ptype = .title) with
  | some kv => kv.2.getPlainText
  | none => .ok ""

end Page

/-! ### Block entity (`entities.py`) -/

/-- Per-subclass payload of a block.  `base` is the bare `Block` class used
for every recognized-but-unhandled tag.  `codeBlock` is Modelled from the
spec: the `CodeBlock` class (`rich_text`, `language`, `caption`) is imported
and dispatched on by `notion_services.py` and `notion_formatters.py` but its
definition is absent from `entities.py`. -/
inductive BlockPayload where
  | base
  | paragraph (rich_text : List RichTextContent) (color : Json)
  | heading (rich_text : List RichTextContent) (color : Json) (level : Nat) (is_toggleable : Json)
  | bulletedListItem (rich_text : List RichTextContent) (color : Json)
  | numberedListItem (rich_text : List RichTextContent) (color : Json)
  | toDo (rich_text : List RichTextContent) (color : Json) (checked : Json)
  | codeBlock (rich_text : List RichTextContent) (language : Json) (caption : List RichTextContent)

/-- A Notion block.  The Python dataclass declares no `children` field:
`childrenSet` records whether the attribute exists on the instance
(`False` straight out of `from_api`; the repository's
`block.children = child_blocks` assignment flips it), and `children` is
meaningful only when `childrenSet` is true. -/
inductive Block where
  | mk (id : Json) (object_type : NotionObjectType)
       (created_time last_edited_time : String)
       (has_children : Json) (block_type : BlockType) (archived : Json)
       (payload : BlockPayload) (childrenSet : Bool) (children : List Block)

namespace Block

def id : Block → Json
  | .mk i _ _ _ _ _ _ _ _ _ => i

def has_children : Block → Json
  | .mk _ _ _ _ h _ _ _ _ _ => h

def block_type : Block → BlockType
  | .mk _ _ _ _ _ b _ _ _ _ => b

def payload : Block → BlockPayload
  | .mk _ _ _ _ _ _ _ p _ _ => p

def childrenSet : Block → Bool
  | .mk _ _ _ _ _ _ _ _ s _ => s

/-- `block.children = child_blocks`: the repository's one post-construction
assignment; after it the attribute exists. -/
def withChildren : Block → List Block → Block
  | .mk i o c l h b a p _ _, kids => .mk i o c l h b a p true kids

/-- Reading `block.children`: `AttributeError` when the attribute was never
assigned (fresh `from_api` output has none). -/
def childrenAttr : Block → Except PyError (List Block)
  | .mk _ _ _ _ _ _ _ _ s kids => if s then .ok kids else .error (.attributeError "children")

/-- `isinstance(block, (TextBlock, CodeBlock))`. -/
def isTextOrCode (b : Block) : Bool :=
  match b.payload with
  | .base => false
  | _ => true

/-- `isinstance(block, CodeBlock)`. -/
def isCode (b : Block) : Bool :=
  match b.payload with
  | .codeBlock _ _ _ => true
  | _ => false

/-- `block.language` (meaningful on code blocks; `AttributeError` elsewhere,
never reached behind the `isinstance` guards). -/
def language : Block → Except PyError Json
  | .mk _ _ _ _ _ _ _ (.codeBlock _ lang _) _ _ => .ok lang
  | _ => .error (.attributeError "language")

/-- `get_plain_text()` of `TextBlock` (and, Modelled from the spec, of
`CodeBlock`): join of the segments' plain texts.  The bare `Block` class has
no such method. -/
def getPlainText (b : Block) : Except PyError String :=
  match b.payload with
  | .base => .error (.attributeError "get_plain_text")
  | .paragraph rts _ => joinPlainTexts rts
  | .heading rts _ _ _ => joinPlainTexts rts
  | .bulletedListItem rts _ => joinPlainTexts rts
  | .numberedListItem rts _ => joinPlainTexts rts
  | .toDo rts _ _ => joinPlainTexts rts
  | .codeBlock rts _ _ => joinPlainTexts rts

end Block

/-- The common dataclass fields every concrete `from_api` reads:
`id`, normalized `created_time` / `last_edited_time`,
`has_children` (default `False`), `archived` (default `False`). -/
def blockCommon (data : Json) : Except PyError (Json × String × String × Json × Json) := do
  let id ← data.pyGet "id"
  let ct ← Json.normTime (← data.pyGet "created_time")
  let lt ← Json.normTime (← data.pyGet "last_edited_time")
  let hc ← data.pyGetD "has_children" (.bool false)
  let ar ← data.pyGetD "archived" (.bool false)
  pure (id, ct, lt, hc, ar)

/-- `ParagraphBlock.from_api`. -/
def ParagraphBlock.fromApi (data : Json) : Except PyError Block := do
  let pdata ← data.pyGetD "paragraph" (.obj [])
  let rtdata ← pdata.pyGetD "rich_text" (.arr [])
  let (id, ct, lt, hc, ar) ← blockCommon data
  let rts ← RichTextContent.fromApi rtdata
  let color ← pdata.pyGetD "color" (.str "default")
  pure (.mk id .block ct lt hc .paragraph ar (.paragraph rts color) false [])

/-- `HeadingBlock.from_api(data, level)`. -/
def HeadingBlock.fromApi (data : Json) (level : Nat) : Except PyError Block := do
  let hdata ← data.pyGetD ("heading_" ++ toString level) (.obj [])
  let rtdata ← hdata.pyGetD "rich_text" (.arr [])
  let bt ←
    match level with
    | 1 => pure BlockType.heading1
    | 2 => pure BlockType.heading2
    | 3 => pure BlockType.heading3
    | _ => .error (.attributeError "HEADING_level")
  let (id, ct, lt, hc, ar) ← blockCommon data
  let rts ← RichTextContent.fromApi rtdata
  let color ← hdata.pyGetD "color" (.str "default")
  let tog ← hdata.pyGetD "is_toggleable" (.bool false)
  pure (.mk id .block ct lt hc bt ar (.heading rts color level tog) false [])

/-- `BulletedListItemBlock.from_api`. -/
def BulletedListItemBlock.fromApi (data : Json) : Except PyError Block := do
  let idata ← data.pyGetD "bulleted_list_item" (.obj [])
  let rtdata ← idata.pyGetD "rich_text" (.arr [])
  let (id, ct, lt, hc, ar) ← blockCommon data
  let rts ← RichTextContent.fromApi rtdata
  let color ← idata.pyGetD "color" (.str "default")
  pure (.mk id .block ct lt hc .bulletedListItem ar (.bulletedListItem rts color) false [])

/-- `NumberedListItemBlock.from_api`. -/
def NumberedListItemBlock.fromApi (data : Json) : Except PyError Block := do
  let idata ← data.pyGetD "numbered_list_item" (.obj [])
  let rtdata ← idata.pyGetD "rich_text" (.arr [])
  let (id, ct, lt, hc, ar) ← blockCommon data
  let rts ← RichTextContent.fromApi rtdata
  let color ← idata.pyGetD "color" (.str "default")
  pure (.mk id .block ct lt hc .numberedListItem ar (.numberedListItem rts color) false [])

/-- `ToDoBlock.from_api`. -/
def ToDoBlock.fromApi (data : Json) : Except PyError Block := do
  let tdata ← data.pyGetD "to_do" (.obj [])
  let rtdata ← tdata.pyGetD "rich_text" (.arr [])
  let (id, ct, lt, hc, ar) ← blockCommon data
  let rts ← RichTextContent.fromApi rtdata
  let color ← tdata.pyGetD "color" (.str "default")
  let checked ← tdata.pyGetD "checked" (.bool false)
  pure (.mk id .block ct lt hc .toDo ar (.toDo rts color checked) false [])

/-- `Block.from_api(data)`: `BlockType(data.get("type"))` first — a tag
outside the enum raises `ValueError` — then polymorphic dispatch; every
recognized tag without a dedicated subclass builds the base `Block`. -/
def Block.fromApi (data : Json) : Except PyError Block := do
  let t ← data.pyGet "type"
  match BlockType.ofValue t with
  | none => .error (.valueError "is not a valid BlockType")
  | some bt =>
    match bt with
    | .paragraph => ParagraphBlock.fromApi data
    | .heading1 => HeadingBlock.fromApi data 1
    | .heading2 => HeadingBlock.fromApi data 2
    | .heading3 => HeadingBlock.fromApi data 3
    | .bulletedListItem => BulletedListItemBlock.fromApi data
    | .numberedListItem => NumberedListItemBlock.fromApi data
    | .toDo => ToDoBlock.fromApi data
    | _ => do
      let (id, ct, lt, hc, ar) ← blockCommon data
      pure (.mk id .block ct lt hc bt ar .base false [])

/-! ### Transport client (`infrastructure/notion/api_client.py`) -/

/-- String formatting of a value into an f-string (only the shapes the
endpoints ever see matter). -/
def Json.pyStr : Json → String
  | .str s => s
  | .null => "None"
  | .bool true => "True"
  | .bool false => "False"
  | .num n => toString n
  | .arr _ => "<list>"
  | .obj _ => "<dict>"

/-- The wire: what one HTTP exchange returns, keyed by method, endpoint,
query params and body — the `requests.request(...)` call.  The result is the
response's status code and (parsed) JSON body. -/
abbrev Wire : Type := String → String → Json → Json → Nat × Json

/-- `NotionAPIClient._make_request`: issue the request, then
`response.raise_for_status()` — which raises exactly for status codes in
[400, 600) — then return `response.json()` (debug logging elided). -/
def makeRequest (wire : Wire) (method endpoint : String) (params data : Json) :
    Except PyError Json :=
  let (status, body) := wire method endpoint params data
  if 400 ≤ status ∧ status < 600 then .error (.httpError status)
  else .ok body

/-- `NotionAPIClient.get_page`. -/
def NotionAPIClient.getPage (wire : Wire) (pageId : Json) : Except PyError Json :=
  makeRequest wire "GET" ("/pages/" ++ pageId.pyStr) .null .null

/-- `NotionAPIClient.get_block_children(block_id, start_cursor)`: params hold
`page_size=100` always and `start_cursor` only when the cursor is truthy. -/
def NotionAPIClient.getBlockChildren (wire : Wire) (blockId : Json) (startCursor : Json) :
    Except PyError Json :=
  let params :=
    if startCursor.truthy then
      Json.obj [("page_size", .num 100), ("start_cursor", startCursor)]
    else
      Json.obj [("page_size", .num 100)]
  makeRequest wire "GET" ("/blocks/" ++ blockId.pyStr ++ "/children") params .null

/-! ### Repository (`infrastructure/notion/repositories.py`) -/

/-- A children-fetch log entry: the `(block_id, start_cursor)` arguments of
one `api_client.get_block_children` call (cursor `Json.null` for `None`). -/
abbrev FetchLog : Type := List (Json × Json)

/-- The inner `for block_data in response.get("results", [])` loop of
`get_page_content`: map each JSON block through `Block.from_api`, and for a
block with truthy `has_children` at `current_depth < max_depth` run the
recursive fetch (passed in as `recurse`) and assign the result to the
block's `children` attribute.  Any exception aborts the whole loop. -/
def gpcBlocks (recurse : Json → Except PyError (List Block) × FetchLog)
    (maxDepth depth : Nat) : List Json → Except PyError (List Block) × FetchLog
  | [] => (.ok [], [])
  | blockData :: rest =>
    match Block.fromApi blockData with
    | .error e => (.error e, [])
    | .ok block =>
      if block.has_children.truthy && decide (depth < maxDepth) then
        match recurse block.id with
        | (.error e, log) => (.error e, log)
        | (.ok childBlocks, log) =>
          let block := block.withChildren childBlocks
          match gpcBlocks recurse maxDepth depth rest with
          | (r, log2) => (r.map (block :: ·), log ++ log2)
      else
        match gpcBlocks recurse maxDepth depth rest with
        | (r, log2) => (r.map (block :: ·), log2)

/-- The two states of `get_page_content`: function entry (`call`, checks the
depth guard and starts the `while` loop with `start_cursor = None`) and one
`while`-loop iteration at a given cursor (`loop`). -/
inductive GpcCall where
  | call (pageId : Json) (depth : Nat)
  | loop (pageId : Json) (depth : Nat) (cursor : Json)

/-- `NotionAPIPageRepository.get_page_content`, fuelled: one unit of fuel per
`while`-loop iteration and per recursion level.  Returns the accumulated
blocks (or the propagated exception) together with the log of
`get_block_children` calls made, in order. -/
def gpcStep (client : Json → Json → Except PyError Json) (maxDepth : Nat) :
    Nat → GpcCall → Except PyError (List Block) × FetchLog
  | fuel, .call pageId depth =>
    if maxDepth ≤ depth then (.ok [], [])
    else
      match fuel with
      | 0 => (.error .outOfFuel, [])
      | fuel + 1 => gpcStep client maxDepth fuel (.loop pageId depth .null)
  | 0, .loop _ _ _ => (.error .outOfFuel, [])
  | fuel + 1, .loop pageId depth cursor =>
    match client pageId cursor with
    | .error e => (.error e, [(pageId, cursor)])
    | .ok response =>
      let entry := (pageId, cursor)
      match response.pyGetD "results" (.arr []) with
      | .error e => (.error e, [entry])
      | .ok resultsJson =>
        match resultsJson.asList with
        | .error e => (.error e, [entry])
        | .ok results =>
          match gpcBlocks (fun childId => gpcStep client maxDepth fuel (.call childId (depth + 1)))
              maxDepth depth results with
          | (.error e, log) => (.error e, entry :: log)
          | (.ok blocks, log) =>
            match response.pyGetD "has_more" (.bool false) with
            | .error e => (.error e, entry :: log)
            | .ok hasMore =>
              if hasMore.truthy then
                match response.pyGetD "next_cursor" .null with
                | .error e => (.error e, entry :: log)
                | .ok nextCursor =>
                  match gpcStep client maxDepth fuel (.loop pageId depth nextCursor) with
                  | (r, log2) => (r.map (blocks ++ ·), entry :: (log ++ log2))
              else (.ok blocks, entry :: log)

/-- `get_page_content(page_id)` as called externally (string id, depth 0). -/
def getPageContent (client : Json → Json → Except PyError Json) (maxDepth : Nat)
    (pageId : String) (fuel : Nat) : Except PyError (List Block) × FetchLog :=
  gpcStep client maxDepth fuel (.call (.str pageId) 0)

/-- `NotionAPIPageRepository.get_page`: fetch then map. -/
def Repository.getPage (clientGetPage : Json → Except PyError Json) (pageId : Json) :
    Except PyError Page := do
  let data ← clientGetPage pageId
  Page.fromApi data

/-- Modelled from the spec: the cursor-chain of responses the pagination
protocol prescribes — "repeatedly call the Transport Client's children/query
operation, following the opaque `next_cursor` while `has_more` is true,
terminates when `has_more` is false".  `some pages` when the chain reaches a
`has_more = false` response within `fuel` successful calls. -/
def specCursorChain (client : Json → Json → Except PyError Json) (pageId : Json) :
    Nat → Json → Option (List Json)
  | 0, _ => none
  | fuel + 1, cursor =>
    match client pageId cursor with
    | .error _ => none
    | .ok response =>
      match response.pyGetD "has_more" (.bool false), response.pyGetD "next_cursor" .null with
      | .ok hasMore, .ok nextCursor =>
        if hasMore.truthy then
          (specCursorChain client pageId fuel nextCursor).map (response :: ·)
        else some [response]
      | _, _ => none

/-! ### URL parsing (`utils/NotionAPIUrlParser.py`) -/

/-- The components `urllib.parse.urlparse` yields. -/
structure UrlParts where
  scheme : String
  netloc : String
  path : String
  query : String
  fragment : String

/-- Characters allowed in a URL scheme. -/
def isSchemeChar (c : Char) : Bool :=
  c.isAlpha || c.isDigit || c = '+' || c = '-' || c = '.'

/-- Model of `urllib.parse.urlparse`: fragment split at the first `#`, an
optional scheme (letters/digits/`+-.` starting with a letter, lowered),
a netloc after `//` running to the first `/` or `?`, then the query split
at the first `?`; the remainder is the path. -/
def urlparse (url : String) : UrlParts :=
  let (afterFrag, frag) := splitOnceChars '#' url.data
  let fragment : List Char := match frag with | some f => f | none => []
  let (pre, post) := splitOnceChars ':' afterFrag
  let (scheme, afterScheme) :=
    match post with
    | some r =>
      if (match pre with | c :: _ => c.isAlpha | [] => false) && pre.all isSchemeChar then
        (pre.map Char.toLower, r)
      else ([], afterFrag)
    | none => ([], afterFrag)
  let (netloc, afterNetloc) :=
    if afterScheme.take 2 = ['/', '/'] then
      let after := afterScheme.drop 2
      (after.takeWhile (fun c => c ≠ '/' && c ≠ '?'),
       after.dropWhile (fun c => c ≠ '/' && c ≠ '?'))
    else ([], afterScheme)
  let (path, query) := splitOnceChars '?' afterNetloc
  ⟨⟨scheme⟩, ⟨netloc⟩, ⟨path⟩, ⟨match query with | some q => q | none => []⟩, ⟨fragment⟩⟩

/-- `NotionAPIUrlParser.extract_id_from_url`: domain must be exactly
`notion.so` or `www.notion.so`; the path stripped of `/` must be non-empty;
the result is the last `-`-separated part with anything from `?` on
removed. -/
def extractIdFromUrl (url : String) : Except PyError String :=
  let parsedUrl := urlparse url
  if parsedUrl.netloc = "notion.so" ∨ parsedUrl.netloc = "www.notion.so" then
    let path : String := ⟨stripChars '/' parsedUrl.path.data⟩
    if path = "" then .error (.valueError "Could not extract ID from URL")
    else
      match splitChars '-' path.data with
      | [] => .error (.valueError "Could not extract ID from URL")
      | [part] => .ok (beforeFirst '?' ⟨part⟩)
      | part :: parts => .ok (beforeFirst '?' ⟨(part :: parts).getLast (List.cons_ne_nil part parts)⟩)
  else .error (.valueError "Not a valid Notion URL")

/-- Modelled from the spec (claim C5's wording): fail exactly when the host
is not `notion.so`/`www.notion.so` or the slash-stripped path is empty;
otherwise the last hyphen-delimited segment of the path, query-stripped
(the whole segment when there is no hyphen). -/
def extractIdSpec (url : String) : Except PyError String :=
  let parsedUrl := urlparse url
  if ¬ (parsedUrl.netloc = "notion.so" ∨ parsedUrl.netloc = "www.notion.so") then
    .error (.valueError "Not a valid Notion URL")
  else
    let path := stripChars '/' parsedUrl.path.data
    if path = [] then .error (.valueError "Could not extract ID from URL")
    else .ok (beforeFirst '?' ⟨(splitChars '-' path).getLastD []⟩)

/-! ### Page service search (`application/services/notion_services.py`) -/

/-- The `child_info` dictionaries inside a match record: `type`, `content`,
and `language` for code blocks (child records carry no `children` key). -/
structure ChildRecord where
  rtype : String
  content : String
  language : Option Json

/-- A `search_blocks` match record: `type`, `content`, `language` present
for code blocks, `children` present when the matched block had truthy
`has_children` and a non-empty `children` list. -/
structure MatchRecord where
  rtype : String
  content : String
  language : Option Json
  children : Option (List ChildRecord)

/-- The `for child in block.children` comprehension building the record's
`children` list: one entry per text/code child, every other child skipped. -/
def childInfos : List Block → Except PyError (List ChildRecord)
  | [] => .ok []
  | child :: rest =>
    if child.isTextOrCode then
      match child.getPlainText with
      | .error e => .error e
      | .ok pt =>
        let lang : Except PyError (Option Json) :=
          if child.isCode then
            match child.language with
            | .error e => .error e
            | .ok l => .ok (some l)
          else .ok none
        match lang with
        | .error e => .error e
        | .ok lang =>
          match childInfos rest with
          | .error e => .error e
          | .ok recs => .ok (⟨child.block_type.toTag, pt, lang⟩ :: recs)
    else childInfos rest

/-- The two states of the recursive `search_block` helper: one block, or a
sequence of blocks searched left to right. -/
inductive SearchCall where
  | one (b : Block)
  | many (bs : List Block)

/-- The `search_block` helper of `NotionPageService.search_blocks`, fuelled
(one unit per recursion step).  A text/code block whose lowered plain text
contains the lowered query contributes one record (with the children field
when `block.has_children and block.children` is truthy), then the walk
descends into `children` under the same guard; records accumulate in
pre-order. -/
def searchStep (query : String) : Nat → SearchCall → Except PyError (List MatchRecord)
  | 0, _ => .error .outOfFuel
  | fuel + 1, .one b =>
    let own : Except PyError (List MatchRecord) :=
      if b.isTextOrCode then
        match b.getPlainText with
        | .error e => .error e
        | .ok pt =>
          if strIn (strLower query) (strLower pt) then
            let lang : Except PyError (Option Json) :=
              if b.isCode then
                match b.language with
                | .error e => .error e
                | .ok l => .ok (some l)
              else .ok none
            match lang with
            | .error e => .error e
            | .ok lang =>
              let kidsField : Except PyError (Option (List ChildRecord)) :=
                if b.has_children.truthy then
                  match b.childrenAttr with
                  | .error e => .error e
                  | .ok kids =>
                    if kids.isEmpty then .ok none
                    else
                      match childInfos kids with
                      | .error e => .error e
                      | .ok recs => .ok (some recs)
                else .ok none
              match kidsField with
              | .error e => .error e
              | .ok kf => .ok [⟨b.block_type.toTag, pt, lang, kf⟩]
          else .ok []
      else .ok []
    match own with
    | .error e => .error e
    | .ok own =>
      let sub : Except PyError (List MatchRecord) :=
        if b.has_children.truthy then
          match b.childrenAttr with
          | .error e => .error e
          | .ok kids => if kids.isEmpty then .ok [] else searchStep query fuel (.many kids)
        else .ok []
      match sub with
      | .error e => .error e
      | .ok sub => .ok (own ++ sub)
  | _fuel + 1, .many [] => .ok []
  | fuel + 1, .many (b :: bs) =>
    match searchStep query fuel (.one b) with
    | .error e => .error e
    | .ok r1 =>
      match searchStep query fuel (.many bs) with
      | .error e => .error e
      | .ok r2 => .ok (r1 ++ r2)

/-- `NotionPageService.search_blocks(query, url)`: resolve the URL, fetch
the page content through the repository, then run the block search. -/
def NotionPageService.searchBlocks (client : Json → Json → Except PyError Json)
    (maxDepth fuel : Nat) (query url : String) : Except PyError (List MatchRecord) := do
  let pageId ← extractIdFromUrl url
  let blocks ← (getPageContent client maxDepth pageId fuel).1
  searchStep query fuel (.many blocks)

/-! ### Pure (total) description of the search, for well-formed trees -/

/-- Total variant of `joinPlainTexts`: concatenate the string segments
(identical to `joinPlainTexts` whenever every segment is a string). -/
def joinPlainTextsD (rts : List RichTextContent) : String :=
  rts.foldl (fun acc rt =>
    match rt.plain_text with
    | .str s => acc ++ s
    | _ => acc) ""

namespace Block

/-- The rich-text list of a block's payload (empty for the base class). -/
def richTexts (b : Block) : List RichTextContent :=
  match b.payload with
  | .base => []
  | .paragraph rts _ => rts
  | .heading rts _ _ _ => rts
  | .bulletedListItem rts _ => rts
  | .numberedListItem rts _ => rts
  | .toDo rts _ _ => rts
  | .codeBlock rts _ _ => rts

/-- Total plain text of a block. -/
def plainTextD (b : Block) : String := joinPlainTextsD b.richTexts

/-- Total `language` (null off code blocks, never reached there). -/
def languageD (b : Block) : Json :=
  match b.payload with
  | .codeBlock _ lang _ => lang
  | _ => .null

/-- The `children` list when the attribute exists, `[]` otherwise. -/
def childrenOrNil : Block → List Block
  | .mk _ _ _ _ _ _ _ _ s kids => if s then kids else []

/-- Every plain-text segment of the block is a string. -/
def plainStringsOk (b : Block) : Bool :=
  b.richTexts.all (fun rt =>
    match rt.plain_text with
    | .str _ => true
    | _ => false)

end Block

/-- Local well-formedness for the search walk: plain-text segments are
strings, and a truthy `has_children` implies the `children` attribute was
assigned (exactly what the repository guarantees for fetched trees). -/
def blockLocalWF (b : Block) : Bool :=
  b.plainStringsOk && (!b.has_children.truthy || b.childrenSet)

/-- Fuelled well-formedness of a search argument: local well-formedness at
every block the walk reaches, with fuel to spare. -/
def wfStep : Nat → SearchCall → Bool
  | 0, _ => false
  | fuel + 1, .one b =>
    blockLocalWF b &&
      (if b.has_children.truthy && !b.childrenOrNil.isEmpty then
        wfStep fuel (.many b.childrenOrNil)
      else true)
  | _fuel + 1, .many [] => true
  | fuel + 1, .many (b :: bs) => wfStep fuel (.one b) && wfStep fuel (.many bs)

/-- Modelled from the amended claim: the child entry for one immediate
text/code child of a matched block. -/
def childInfoPure (c : Block) : ChildRecord :=
  ⟨c.block_type.toTag, c.plainTextD, if c.isCode then some c.languageD else none⟩

/-- Modelled from the amended claim: entries for all immediate text/code
children of a matched block, matching or not, in order. -/
def childInfosPure (kids : List Block) : List ChildRecord :=
  kids.filterMap (fun c => if c.isTextOrCode then some (childInfoPure c) else none)

/-- Modelled from the amended claim: the match records of the search, in
pre-order — one record per text/code block whose lowered plain text
contains the lowered query, carrying the block's type tag, its full plain
text, the language for code blocks, and (when the block has truthy
`has_children` and a non-empty `children` list) entries for all its
immediate text/code children. -/
def searchSpec (query : String) : Nat → SearchCall → List MatchRecord
  | 0, _ => []
  | fuel + 1, .one b =>
    let own : List MatchRecord :=
      if b.isTextOrCode && strIn (strLower query) (strLower b.plainTextD) then
        [⟨b.block_type.toTag, b.plainTextD,
          (if b.isCode then some b.languageD else none),
          (if b.has_children.truthy && !b.childrenOrNil.isEmpty then
            some (childInfosPure b.childrenOrNil)
          else none)⟩]
      else []
    own ++
      (if b.has_children.truthy && !b.childrenOrNil.isEmpty then
        searchSpec query fuel (.many b.childrenOrNil)
      else [])
  | _fuel + 1, .many [] => []
  | fuel + 1, .many (b :: bs) =>
    searchSpec query fuel (.one b) ++ searchSpec query fuel (.many bs)

/-! ### Pure description of one pagination run, for claim C4 -/

/-- Map a list of raw block JSONs through `Block.from_api`; `none` if any
mapping fails. -/
def blocksOfItems : List Json → Option (List Block)
  | [] => some []
  | j :: rest =>
    match Block.fromApi j with
    | .ok b => (blocksOfItems rest).map (b :: ·)
    | .error _ => none

/-- The `results` array of one children response, when present and an
array. -/
def respItems (resp : Json) : Option (List Json) :=
  match resp.pyGetD "results" (.arr []) with
  | .ok rj =>
    match rj.asList with
    | .ok items => some items
    | .error _ => none
  | .error _ => none

/-- The blocks of one response (empty if malformed — only used under
hypotheses ruling that out). -/
def respBlocksD (resp : Json) : List Block :=
  match respItems resp with
  | some items => (blocksOfItems items).getD []
  | none => []

/-- Blocks of a response chain, concatenated in first-seen order. -/
def pagesBlocks : List Json → List Block
  | [] => []
  | resp :: rest => respBlocksD resp ++ pagesBlocks rest

/-- The `next_cursor` of a response (null when absent). -/
def nextCursorD (resp : Json) : Json :=
  match resp.pyGetD "next_cursor" .null with
  | .ok c => c
  | .error _ => .null

/-- The children-fetch calls a response chain induces: one call per page,
the first at `cursor`, each later one echoing the previous page's
`next_cursor`. -/
def chainLog (pageId cursor : Json) : List Json → FetchLog
  | [] => []
  | resp :: rest => (pageId, cursor) :: chainLog pageId (nextCursorD resp) rest

/-- A response chain all of whose blocks are well-formed and childless
(`has_children` falsy), isolating the pagination protocol from the
recursion protocol. -/
def plainPages (pages : List Json) : Prop :=
  ∀ resp ∈ pages, ∃ items, respItems resp = some items ∧
    ∃ bs, blocksOfItems items = some bs ∧ ∀ b ∈ bs, b.has_children.truthy = false

/-! ### Concrete fixtures used by the claim theorems -/

/-- The unsupported-block input of `tests/test_notion_entities.py`
(`test_unsupported_block_type`): tag `"unsupported_type"` is outside the
`BlockType` enumeration. -/
def c1Json : Json := .obj [
  ("object", .str "block"), ("id", .str "block_id"),
  ("type", .str "unsupported_type"),
  ("created_time", .str "2024-03-23T12:00:00.000Z"),
  ("last_edited_time", .str "2024-03-23T12:30:00.000Z"),
  ("has_children", .bool false), ("archived", .bool false)]

/-- The unsupported-property input of `tests/test_notion_value_objects.py`
(`test_from_api_with_unsupported_property_type`). -/
def c2Json : Json := .obj [
  ("type", .str "unique_id"),
  ("unique_id", .obj [("prefix", .str "WOR"), ("number", .num 128)])]

/-- A well-formed paragraph block JSON with `has_children = false`. -/
def c6Json : Json := .obj [
  ("object", .str "block"), ("id", .str "block_id"), ("type", .str "paragraph"),
  ("created_time", .str "2024-03-23T12:00:00.000Z"),
  ("last_edited_time", .str "2024-03-23T12:30:00.000Z"),
  ("has_children", .bool false), ("archived", .bool false),
  ("paragraph", .obj [
    ("rich_text", .arr [.obj [
      ("type", .str "text"),
      ("text", .obj [("content", .str "Hello")]),
      ("plain_text", .str "Hello")]]),
    ("color", .str "default")])]

/-- The round-trip paragraph input of claim C9: two text segments with
plain texts `"First "` and `"second"`. -/
def c9Json : Json := .obj [
  ("object", .str "block"), ("id", .str "block_id"), ("type", .str "paragraph"),
  ("created_time", .str "2024-03-23T12:00:00.000Z"),
  ("last_edited_time", .str "2024-03-23T12:30:00.000Z"),
  ("has_children", .bool false), ("archived", .bool false),
  ("paragraph", .obj [
    ("rich_text", .arr [
      .obj [("type", .str "text"),
            ("text", .obj [("content", .str "First ")]),
            ("plain_text", .str "First ")],
      .obj [("type", .str "text"),
            ("text", .obj [("content", .str "second")]),
            ("plain_text", .str "second")]]),
    ("color", .str "default")])]

/-- A paragraph block JSON: id `i`, `has_children` flag `hc`, one text
segment with plain text `txt`. -/
def paraJson (i : String) (hc : Bool) (txt : String) : Json := .obj [
  ("id", .str i), ("type", .str "paragraph"),
  ("created_time", .str "t1"), ("last_edited_time", .str "t2"),
  ("has_children", .bool hc),
  ("paragraph", .obj [
    ("rich_text", .arr [.obj [
      ("type", .str "text"),
      ("text", .obj [("content", .str txt)]),
      ("plain_text", .str txt)]])])]

/-- The `Block` value `paraJson i hc txt` maps to, with children state
`(cs, kids)`. -/
def paraBlock (i : String) (hc : Bool) (txt : String) (cs : Bool) (kids : List Block) : Block :=
  .mk (.str i) .block "t1" "t2" (.bool hc) .paragraph (.bool false)
    (.paragraph [⟨.str txt, .str txt, .null, .null⟩] (.str "default")) cs kids

/-- Claim C3's transport stub: the root has a child `b1` reporting
`has_children = true` and a childless sibling `b0`; `b1`'s child `b2` again
reports `has_children = true`; every further fetch would fail. -/
def client3 : Json → Json → Except PyError Json
  | .str "root", .null => .ok (.obj [
      ("results", .arr [paraJson "b1" true "alpha", paraJson "b0" false "leaf"]),
      ("has_more", .bool false)])
  | .str "b1", .null => .ok (.obj [
      ("results", .arr [paraJson "b2" true "beta"]),
      ("has_more", .bool false)])
  | _, _ => .error (.httpError 404)

/-- The first page claim C4's stub returns (`has_more = true`). -/
def c4resp1 : Json := .obj [
  ("results", .arr [paraJson "a1" false "first page"]),
  ("has_more", .bool true), ("next_cursor", .str "c1")]

/-- The second page claim C4's stub returns (`has_more = false`). -/
def c4resp2 : Json := .obj [
  ("results", .arr [paraJson "a2" false "second page"]),
  ("has_more", .bool false)]

/-- Claim C4's transport stub: first page `has_more = true`,
`next_cursor = "c1"`; second page (only at cursor `"c1"`) `has_more =
false`; both pages hold one childless paragraph. -/
def client4 : Json → Json → Except PyError Json
  | .str "root", .null => .ok c4resp1
  | .str "root", .str "c1" => .ok c4resp2
  | _, _ => .error (.httpError 404)

/-- Claim C7's transport stub: the page has one matching paragraph whose
single child paragraph does not match the query. -/
def client7 : Json → Json → Except PyError Json
  | .str "root1", .null => .ok (.obj [
      ("results", .arr [paraJson "p1" true "needle here"]),
      ("has_more", .bool false)])
  | .str "p1", .null => .ok (.obj [
      ("results", .arr [paraJson "ch1" false "nothing"]),
      ("has_more", .bool false)])
  | _, _ => .error (.httpError 404)

/-- A three-level hand-built tree (as the repository would assemble it):
only the innermost block contains the query. -/
def deepTree : Block :=
  paraBlock "top" true "Top level" true
    [paraBlock "mid" true "Middle level" true
      [paraBlock "bottom" false "the needle is here" false []]]

/-- Claim C8's wire stub: the remote answers 304 Not Modified (a non-2xx
status) with a JSON body. -/
def wire304 : Wire := fun _ _ _ _ => (304, .obj [("cached", .bool true)])

/-- A transport client whose every call fails with HTTP 500. -/
def clientErr500 : Json → Json → Except PyError Json :=
  fun _ _ => .error (.httpError 500)

/-- Claim C10's witness input: a mention item, a text item, another
non-text item, then a second text item. -/
def c10Items : List Json := [
  .obj [("type", .str "mention"), ("plain_text", .str "@user")],
  .obj [("type", .str "text"),
        ("text", .obj [("content", .str "one ")]),
        ("plain_text", .str "one ")],
  .obj [("type", .str "equation"), ("plain_text", .str "x+y")],
  .obj [("type", .str "text"),
        ("text", .obj [("content", .str "two")]),
        ("plain_text", .str "two")]]

/-- `item["type"] == "text"`, total (false where indexing would raise). -/
def isTextTagged (item : Json) : Bool :=
  match item.pyIndex "type" with
  | .ok (.str "text") => true
  | _ => false

/-- Total construction of the `RichTextContent` a well-formed text item
yields (defaults where the effectful reads cannot fail under
well-formedness). -/
def rtcOfTextItemD (item : Json) : RichTextContent :=
  let text := match item.pyIndex "text" with | .ok t => t | .error _ => .obj []
  let content := match text.pyGetD "content" (.str "") with | .ok c => c | .error _ => .str ""
  let plain := match item.pyGetD "plain_text" content with | .ok p => p | .error _ => content
  let annotations := match item.pyGet "annotations" with | .ok a => a | .error _ => .null
  let href := match item.pyGet "href" with | .ok h2 => h2 | .error _ => .null
  ⟨content, plain, annotations, href⟩

/-- A well-formed rich-text item: a JSON object carrying a `type` key,
and — when that type is `"text"` — a `text` key holding an object. -/
def richTextItemWF (item : Json) : Bool :=
  match item with
  | .obj fields =>
    match Json.lookupField "type" fields with
    | some (.str "text") =>
      (match Json.lookupField "text" fields with
       | some (.obj _) => true
       | _ => false)
    | some _ => true
    | none => false
  | _ => false

/-- Whether a block was built by the `ParagraphBlock` subclass. -/
def Block.isParagraphBlock (b : Block) : Bool :=
  match b.payload with
  | .paragraph _ _ => true
  | _ => false

/-- A wire stub answering 500 to everything. -/
def wire500 : Wire := fun _ _ _ _ => (500, .null)

/-- The `Block` value `Block.from_api` produces for `c6Json`. -/
def c6Block : Block :=
  .mk (.str "block_id") .block "2024-03-23T12:00:00.000+00:00" "2024-03-23T12:30:00.000+00:00"
    (.bool false) .paragraph (.bool false)
    (.paragraph [⟨.str "Hello", .str "Hello", .null, .null⟩] (.str "default")) false []

/-- A minimal childless paragraph block. -/
def smallBlock : Block := paraBlock "s" false "hi" false []

/-! ### Supporting lemmas -/


theorem withChildren_childrenSet (b : Block) (kids : List Block) :
    (b.withChildren kids).childrenSet = true := by
  cases b; rfl

theorem withChildren_has_children (b : Block) (kids : List Block) :
    (b.withChildren kids).has_children = b.has_children := by
  cases b; rfl

theorem paragraph_fromApi_childrenSet (data : Json) (b : Block)
    (h : ParagraphBlock.fromApi data = .ok b) : b.childrenSet = false := by
  unfold ParagraphBlock.fromApi blockCommon at h
  simp only [Bind.bind, Except.bind, Pure.pure, Except.pure] at h
  repeat' split at h
  all_goals first
    | exact (Except.noConfusion h)
    | (cases h; rfl)

theorem heading_fromApi_childrenSet (data : Json) (level : Nat) (b : Block)
    (h : HeadingBlock.fromApi data level = .ok b) : b.childrenSet = false := by
  unfold HeadingBlock.fromApi blockCommon at h
  simp only [Bind.bind, Except.bind, Pure.pure, Except.pure] at h
  repeat' split at h
  all_goals first
    | exact (Except.noConfusion h)
    | (cases h; rfl)

theorem bulleted_fromApi_childrenSet (data : Json) (b : Block)
    (h : BulletedListItemBlock.fromApi data = .ok b) : b.childrenSet = false := by
  unfold BulletedListItemBlock.fromApi blockCommon at h
  simp only [Bind.bind, Except.bind, Pure.pure, Except.pure] at h
  repeat' split at h
  all_goals first
    | exact (Except.noConfusion h)
    | (cases h; rfl)

theorem numbered_fromApi_childrenSet (data : Json) (b : Block)
    (h : NumberedListItemBlock.fromApi data = .ok b) : b.childrenSet = false := by
  unfold NumberedListItemBlock.fromApi blockCommon at h
  simp only [Bind.bind, Except.bind, Pure.pure, Except.pure] at h
  repeat' split at h
  all_goals first
    | exact (Except.noConfusion h)
    | (cases h; rfl)

theorem todo_fromApi_childrenSet (data : Json) (b : Block)
    (h : ToDoBlock.fromApi data = .ok b) : b.childrenSet = false := by
  unfold ToDoBlock.fromApi blockCommon at h
  simp only [Bind.bind, Except.bind, Pure.pure, Except.pure] at h
  repeat' split at h
  all_goals first
    | exact (Except.noConfusion h)
    | (cases h; rfl)

theorem block_fromApi_childrenSet (data : Json) (b : Block)
    (h : Block.fromApi data = .ok b) : b.childrenSet = false := by
  unfold Block.fromApi blockCommon at h
  simp only [Bind.bind, Except.bind, Pure.pure, Except.pure] at h
  repeat' split at h
  all_goals first
    | exact (Except.noConfusion h)
    | exact paragraph_fromApi_childrenSet _ _ h
    | exact heading_fromApi_childrenSet _ _ _ h
    | exact bulleted_fromApi_childrenSet _ _ h
    | exact numbered_fromApi_childrenSet _ _ h
    | exact todo_fromApi_childrenSet _ _ h
    | (cases h; rfl)

theorem gpc_depth_guard (client : Json → Json → Except PyError Json) (maxD : Nat)
    (pid : Json) (d : Nat) (hd : maxD ≤ d) (fuel : Nat) :
    gpcStep client maxD fuel (.call pid d) = (.ok [], []) := by
  cases fuel <;> simp [gpcStep, hd]

theorem gpcBlocks_flags (recurse : Json → Except PyError (List Block) × FetchLog)
    (maxD d : Nat) : ∀ (items : List Json) (bs : List Block) (log : FetchLog),
    gpcBlocks recurse maxD d items = (.ok bs, log) →
    ∀ b ∈ bs, b.childrenSet = (b.has_children.truthy && decide (d < maxD)) := by
  intro items
  induction items with
  | nil =>
    intro bs log h b hb
    simp only [gpcBlocks, Prod.mk.injEq] at h
    obtain ⟨h1, _⟩ := h
    cases h1
    simp at hb
  | cons j rest ih =>
    intro bs log h b hb
    rw [gpcBlocks] at h
    split at h
    · simp at h
    · rename_i block hApi
      split at h
      · rename_i hcond
        split at h
        · simp at h
        · rename_i kids log1 hrec
          split at h
          rename_i r log2 hrest
          cases r with
          | error e => simp [Except.map] at h
          | ok bs2 =>
            simp only [Except.map, Prod.mk.injEq] at h
            obtain ⟨h1, _⟩ := h
            cases h1
            rcases List.mem_cons.mp hb with hb1 | hb2
            · subst hb1
              rw [withChildren_childrenSet, withChildren_has_children, hcond]
            · exact ih bs2 log2 (by rw [hrest]) b hb2
      · rename_i hcond
        split at h
        rename_i r log2 hrest
        cases r with
        | error e => simp [Except.map] at h
        | ok bs2 =>
          simp only [Except.map, Prod.mk.injEq] at h
          obtain ⟨h1, _⟩ := h
          cases h1
          rcases List.mem_cons.mp hb with hb1 | hb2
          · subst hb1
            rw [block_fromApi_childrenSet j b hApi]
            simp only [Bool.and_eq_true, not_and] at hcond
            exact (Bool.and_eq_false_iff.mpr (by
              by_cases hx : b.has_children.truthy = true
              · right
                simp_all
              · left
                simp_all)).symm
          · exact ih bs2 log2 (by rw [hrest]) b hb2

theorem gpc_loop_flags (client : Json → Json → Except PyError Json) (maxD : Nat) :
    ∀ (fuel : Nat) (pid : Json) (d : Nat) (cur : Json) (bs : List Block) (log : FetchLog),
    d < maxD →
    gpcStep client maxD fuel (.loop pid d cur) = (.ok bs, log) →
    ∀ b ∈ bs, b.childrenSet = b.has_children.truthy := by
  intro fuel
  induction fuel with
  | zero =>
    intro pid d cur bs log hd h
    simp [gpcStep] at h
  | succ f ih =>
    intro pid d cur bs log hd h b hb
    rw [gpcStep] at h
    split at h
    · simp at h
    · rename_i resp hclient
      split at h
      · simp at h
      · rename_i resultsJson hresults
        split at h
        · simp at h
        · rename_i results hlist
          split at h
          · rename_i e log1 hblocks
            simp at h
          · rename_i blocks log1 hblocks
            split at h
            · simp at h
            · rename_i hasMore hhm
              split at h
              · split at h
                · simp at h
                · rename_i nc hnc
                  split at h
                  rename_i r2 log2 hrec
                  cases r2 with
                  | error e => simp [Except.map] at h
                  | ok bs2 =>
                    simp only [Except.map, Except.ok.injEq, Prod.mk.injEq] at h
                    obtain ⟨h1, _⟩ := h
                    subst h1
                    rcases List.mem_append.mp hb with hb1 | hb2
                    · have := gpcBlocks_flags _ maxD d results blocks log1 hblocks b hb1
                      simpa [hd] using this
                    · exact ih pid d nc bs2 log2 hd (by rw [hrec]) b hb2
              · simp only [Except.ok.injEq, Prod.mk.injEq] at h
                obtain ⟨h1, _⟩ := h
                subst h1
                have := gpcBlocks_flags _ maxD d results blocks log1 hblocks b hb
                simpa [hd] using this

theorem gpc_call_flags (client : Json → Json → Except PyError Json) (maxD : Nat)
    (fuel : Nat) (pid : Json) (d : Nat) (bs : List Block) (log : FetchLog)
    (h : gpcStep client maxD fuel (.call pid d) = (.ok bs, log)) :
    ∀ b ∈ bs, b.childrenSet = b.has_children.truthy := by
  intro b hb
  cases fuel with
  | zero =>
    rw [gpcStep] at h
    split at h
    · simp only [Except.ok.injEq, Prod.mk.injEq] at h
      obtain ⟨h1, _⟩ := h
      subst h1
      simp at hb
    · simp at h
  | succ f =>
    rw [gpcStep] at h
    split at h
    · simp only [Except.ok.injEq, Prod.mk.injEq] at h
      obtain ⟨h1, _⟩ := h
      subst h1
      simp at hb
    · rename_i hd
      exact gpc_loop_flags client maxD f pid d .null bs log (Nat.lt_of_not_le hd) h b hb

theorem makeRequest_raises (wire : Wire) (method endpoint : String) (params data : Json)
    (status : Nat) (body : Json) (hw : wire method endpoint params data = (status, body))
    (h1 : 400 ≤ status) (h2 : status < 600) :
    makeRequest wire method endpoint params data = .error (.httpError status) := by
  simp [makeRequest, hw, h1, h2]

theorem getPage_error_prop (clientGetPage : Json → Except PyError Json) (pid : Json)
    (e : PyError) (h : clientGetPage pid = .error e) :
    Repository.getPage clientGetPage pid = .error e := by
  simp [Repository.getPage, h, Bind.bind, Except.bind]

theorem gpc_error_prop (client : Json → Json → Except PyError Json) (maxD : Nat)
    (pid : Json) (e : PyError) (f : Nat) (hd : 0 < maxD)
    (hc : client pid .null = .error e) :
    gpcStep client maxD (f + 2) (.call pid 0) = (.error e, [(pid, .null)]) := by
  have h1 : ¬ maxD ≤ 0 := by omega
  rw [gpcStep, if_neg h1, gpcStep, hc]

theorem gpcBlocks_noChildren (recurse : Json → Except PyError (List Block) × FetchLog)
    (maxD d : Nat) : ∀ (items : List Json) (bs : List Block),
    blocksOfItems items = some bs →
    (∀ b ∈ bs, b.has_children.truthy = false) →
    gpcBlocks recurse maxD d items = (.ok bs, []) := by
  intro items
  induction items with
  | nil =>
    intro bs h hf
    simp only [blocksOfItems, Option.some.injEq] at h
    subst h
    rfl
  | cons j rest ih =>
    intro bs h hf
    rw [blocksOfItems] at h
    split at h
    · rename_i b hApi
      cases hrest : blocksOfItems rest with
      | none => rw [hrest] at h; simp at h
      | some bs2 =>
        rw [hrest] at h
        simp only [Option.map, Option.some.injEq] at h
        subst h
        have hb : b.has_children.truthy = false := hf b (by simp)
        have hi := ih bs2 hrest (fun x hx => hf x (by simp [hx]))
        rw [gpcBlocks]
        simp [hApi, hb, hi, Except.map]
    · simp at h

theorem gpc_loop_pages (client : Json → Json → Except PyError Json) (maxD d : Nat)
    (pid : Json) : ∀ (fspec : Nat) (cur : Json) (pages : List Json),
    specCursorChain client pid fspec cur = some pages →
    plainPages pages →
    ∀ (fuel : Nat), pages.length ≤ fuel →
    gpcStep client maxD (fuel + 1) (.loop pid d cur) =
      (.ok (pagesBlocks pages), chainLog pid cur pages) := by
  intro fspec
  induction fspec with
  | zero =>
    intro cur pages h
    simp [specCursorChain] at h
  | succ f ih =>
    intro cur pages h hplain fuel hfuel
    rw [specCursorChain] at h
    split at h
    · simp at h
    · rename_i resp hclient
      split at h
      · rename_i hasMore nextCursor hhm hnc
        split at h
        · rename_i htruthy
          cases hrest : specCursorChain client pid f nextCursor with
          | none => rw [hrest] at h; simp at h
          | some rest =>
            rw [hrest] at h
            simp only [Option.map, Option.some.injEq] at h
            subst h
            obtain ⟨items, hitems, bs, hbs, hflat⟩ := hplain resp (by simp)
            unfold respItems at hitems
            split at hitems
            · rename_i rj hrj
              split at hitems
              · rename_i items2 hlist
                simp only [Option.some.injEq] at hitems
                subst hitems
                have hrb : respBlocksD resp = bs := by
                  simp [respBlocksD, respItems, hrj, hlist, hbs]
                have hncD : nextCursorD resp = nextCursor := by
                  simp [nextCursorD, hnc]
                obtain ⟨f2, hf2⟩ : ∃ f2, fuel = f2 + 1 :=
                  ⟨fuel - 1, by simp at hfuel; omega⟩
                subst hf2
                have hlen2 : rest.length ≤ f2 := by simp at hfuel; omega
                have hblocks := gpcBlocks_noChildren
                  (fun childId => gpcStep client maxD (f2 + 1) (.call childId (d + 1)))
                  maxD d items2 bs hbs hflat
                have hih := ih nextCursor rest hrest
                  (fun p hp => hplain p (by simp [hp])) f2 hlen2
                rw [gpcStep]
                simp [hclient, hrj, hlist, hblocks, hhm, htruthy, hnc, hih,
                  pagesBlocks, chainLog, hrb, hncD, Except.map]
              · simp at hitems
            · simp at hitems
        · rename_i htruthy
          simp only [Option.some.injEq] at h
          subst h
          obtain ⟨items, hitems, bs, hbs, hflat⟩ := hplain resp (by simp)
          unfold respItems at hitems
          split at hitems
          · rename_i rj hrj
            split at hitems
            · rename_i items2 hlist
              simp only [Option.some.injEq] at hitems
              subst hitems
              have hrb : respBlocksD resp = bs := by
                simp [respBlocksD, respItems, hrj, hlist, hbs]
              have hblocks := gpcBlocks_noChildren
                (fun childId => gpcStep client maxD fuel (.call childId (d + 1)))
                maxD d items2 bs hbs hflat
              rw [gpcStep]
              simp [hclient, hrj, hlist, hblocks, hhm, htruthy,
                pagesBlocks, chainLog, hrb, Except.map]
            · simp at hitems
          · simp at hitems
      · simp at h

theorem joinPlainTexts_ok : ∀ (rts : List RichTextContent) (acc : String),
    (rts.all fun rt =>
      match rt.plain_text with
      | .str _ => true
      | _ => false) = true →
    List.foldlM (fun acc rt =>
      match rt.plain_text with
      | Json.str s => Except.ok (acc ++ s)
      | _ => Except.error (PyError.typeError "join")) acc rts
      = .ok (rts.foldl (fun acc rt =>
          match rt.plain_text with
          | Json.str s => acc ++ s
          | _ => acc) acc) := by
  intro rts
  induction rts with
  | nil => intro acc h; rfl
  | cons rt rest ih =>
    intro acc h
    simp only [List.all_cons, Bool.and_eq_true] at h
    obtain ⟨h1, h2⟩ := h
    rw [List.foldlM_cons, List.foldl_cons]
    cases hpt : rt.plain_text <;> simp [hpt] at h1 ⊢
    · exact ih _ h2

theorem getPlainText_eq (b : Block) (htc : b.isTextOrCode = true)
    (hstr : b.plainStringsOk = true) : b.getPlainText = .ok b.plainTextD := by
  cases b with
  | mk i o ct lt hc bt ar payload cs kids =>
    cases payload with
    | base => simp [Block.isTextOrCode, Block.payload] at htc
    | paragraph rts color => exact joinPlainTexts_ok rts "" hstr
    | heading rts color lvl tog => exact joinPlainTexts_ok rts "" hstr
    | bulletedListItem rts color => exact joinPlainTexts_ok rts "" hstr
    | numberedListItem rts color => exact joinPlainTexts_ok rts "" hstr
    | toDo rts color checked => exact joinPlainTexts_ok rts "" hstr
    | codeBlock rts lang cap => exact joinPlainTexts_ok rts "" hstr

theorem language_eq (b : Block) (hcode : b.isCode = true) :
    b.language = .ok b.languageD := by
  cases b with
  | mk i o ct lt hc bt ar payload cs kids =>
    cases payload <;> simp_all [Block.isCode, Block.payload, Block.language, Block.languageD]

theorem childrenAttr_eq (b : Block) (hset : b.childrenSet = true) :
    b.childrenAttr = .ok b.childrenOrNil := by
  cases b with
  | mk i o ct lt hc bt ar payload cs kids =>
    simp only [Block.childrenSet] at hset
    subst hset
    simp [Block.childrenAttr, Block.childrenOrNil]

theorem childInfos_ok : ∀ (kids : List Block),
    (∀ k ∈ kids, blockLocalWF k = true) →
    childInfos kids = .ok (childInfosPure kids) := by
  intro kids
  induction kids with
  | nil => intro h; rfl
  | cons c rest ih =>
    intro h
    have hc := h c (by simp)
    rw [blockLocalWF, Bool.and_eq_true] at hc
    have hstr : c.plainStringsOk = true := hc.1
    have hrest := ih (fun k hk => h k (by simp [hk]))
    rw [childInfos]
    by_cases htc : c.isTextOrCode = true
    · rw [if_pos htc, getPlainText_eq c htc hstr, hrest]
      by_cases hcode : c.isCode = true
      · simp [hcode, language_eq c hcode, childInfosPure, childInfoPure, htc]
      · simp [hcode, childInfosPure, childInfoPure, htc]
    · rw [if_neg htc, hrest]
      simp [childInfosPure, htc]

theorem wf_one_local (f : Nat) (b : Block) (h : wfStep f (.one b) = true) :
    blockLocalWF b = true := by
  cases f with
  | zero => simp [wfStep] at h
  | succ f =>
    rw [wfStep, Bool.and_eq_true] at h
    exact h.1

theorem wf_many_local : ∀ (f : Nat) (kids : List Block),
    wfStep f (.many kids) = true → ∀ k ∈ kids, blockLocalWF k = true := by
  intro f
  induction f with
  | zero => intro kids h; simp [wfStep] at h
  | succ f ih =>
    intro kids h k hk
    cases kids with
    | nil => simp at hk
    | cons b bs =>
      rw [wfStep, Bool.and_eq_true] at h
      obtain ⟨h1, h2⟩ := h
      rcases List.mem_cons.mp hk with rfl | hk2
      · exact wf_one_local f k h1
      · exact ih bs h2 k hk2

theorem searchStep_eq_spec (q : String) : ∀ (f : Nat) (c : SearchCall),
    wfStep f c = true → searchStep q f c = .ok (searchSpec q f c) := by
  intro f
  induction f with
  | zero =>
    intro c h
    simp [wfStep] at h
  | succ f ih =>
    intro c h
    cases c with
    | one b =>
      rw [wfStep, Bool.and_eq_true] at h
      obtain ⟨hlocal, hrec⟩ := h
      rw [blockLocalWF, Bool.and_eq_true] at hlocal
      obtain ⟨hstr, hflag⟩ := hlocal
      rw [searchStep, searchSpec]
      by_cases htc : b.isTextOrCode = true
      · have hpt := getPlainText_eq b htc hstr
        by_cases htr : b.has_children.truthy = true
        · have hset : b.childrenSet = true := by
            simpa [htr] using hflag
          have hattr := childrenAttr_eq b hset
          by_cases hkids : b.childrenOrNil.isEmpty = true
          · by_cases hm : strIn (strLower q) (strLower b.plainTextD) = true
            · by_cases hcode : b.isCode = true
              · simp [htc, hpt, htr, hattr, hkids, hm, hcode, language_eq b hcode]
              · simp [htc, hpt, htr, hattr, hkids, hm, hcode]
            · simp [htc, hpt, htr, hattr, hkids, hm]
          · have hwf2 : wfStep f (.many b.childrenOrNil) = true := by
              simpa [htr, hkids] using hrec
            have hsub := ih (.many b.childrenOrNil) hwf2
            have hci := childInfos_ok b.childrenOrNil (wf_many_local f _ hwf2)
            by_cases hm : strIn (strLower q) (strLower b.plainTextD) = true
            · by_cases hcode : b.isCode = true
              · simp [htc, hpt, htr, hattr, hkids, hm, hcode, language_eq b hcode, hci, hsub]
              · simp [htc, hpt, htr, hattr, hkids, hm, hcode, hci, hsub]
            · simp [htc, hpt, htr, hattr, hkids, hm, hsub]
        · by_cases hm : strIn (strLower q) (strLower b.plainTextD) = true
          · by_cases hcode : b.isCode = true
            · simp [htc, hpt, htr, hm, hcode, language_eq b hcode]
            · simp [htc, hpt, htr, hm, hcode]
          · simp [htc, hpt, htr, hm]
      · by_cases htr : b.has_children.truthy = true
        · have hset : b.childrenSet = true := by
            simpa [htr] using hflag
          have hattr := childrenAttr_eq b hset
          by_cases hkids : b.childrenOrNil.isEmpty = true
          · simp [htc, htr, hattr, hkids]
          · have hwf2 : wfStep f (.many b.childrenOrNil) = true := by
              simpa [htr, hkids] using hrec
            simp [htc, htr, hattr, hkids, ih (.many b.childrenOrNil) hwf2]
        · simp [htc, htr]
    | many bs =>
      cases bs with
      | nil => rfl
      | cons b rest =>
        rw [wfStep, Bool.and_eq_true] at h
        obtain ⟨h1, h2⟩ := h
        rw [searchStep, searchSpec, ih (.one b) h1, ih (.many rest) h2]

theorem splitChars_ne_nil (sep : Char) (cs : List Char) : splitChars sep cs ≠ [] := by
  induction cs with
  | nil => simp [splitChars]
  | cons c rest ih =>
    simp only [splitChars]
    split
    · simp
    · cases h : splitChars sep rest with
      | nil => exact absurd h ih
      | cons a t => simp

theorem getLastD_cons_eq_getLast : ∀ (xs : List α) (x d : α),
    (x :: xs).getLastD d = (x :: xs).getLast (List.cons_ne_nil x xs) := by
  intro xs
  induction xs with
  | nil => intro x d; rfl
  | cons y ys ih =>
    intro x d
    rw [List.getLastD_cons, List.getLast_cons (List.cons_ne_nil y ys)]
    exact ih y x

theorem extractId_eq (url : String) : extractIdFromUrl url = extractIdSpec url := by
  unfold extractIdFromUrl extractIdSpec
  by_cases hdom : (urlparse url).netloc = "notion.so" ∨ (urlparse url).netloc = "www.notion.so"
  · rw [if_pos hdom, if_neg (not_not_intro hdom)]
    by_cases hpath : stripChars '/' (urlparse url).path.data = []
    · have hpS : (⟨stripChars '/' (urlparse url).path.data⟩ : String) = "" := by
        simp [String.ext_iff, hpath]
      rw [if_pos hpS, if_pos hpath]
    · have hpS : ¬ (⟨stripChars '/' (urlparse url).path.data⟩ : String) = "" := by
        simp [String.ext_iff, hpath]
      rw [if_neg hpS, if_neg hpath]
      have hdata : (String.mk (stripChars '/' (urlparse url).path.data)).data
          = stripChars '/' (urlparse url).path.data := rfl
      rw [hdata]
      cases hsplit : splitChars '-' (stripChars '/' (urlparse url).path.data) with
      | nil => exact absurd hsplit (splitChars_ne_nil _ _)
      | cons part parts =>
        cases parts with
        | nil => rfl
        | cons p2 ps =>
          rw [getLastD_cons_eq_getLast]
  · rw [if_neg hdom, if_pos hdom]

theorem pyGetD_obj (fs : List (String × Json)) (k : String) (d : Json) :
    Json.pyGetD (.obj fs) k d = .ok ((Json.lookupField k fs).getD d) := by
  rw [Json.pyGetD]
  cases Json.lookupField k fs <;> rfl

theorem fromApiItem_wf (item : Json) (h : richTextItemWF item = true) :
    RichTextContent.fromApiItem item
      = .ok (if isTextTagged item then some (rtcOfTextItemD item) else none) := by
  cases item with
  | null => simp [richTextItemWF] at h
  | bool b => simp [richTextItemWF] at h
  | num n => simp [richTextItemWF] at h
  | str s => simp [richTextItemWF] at h
  | arr xs => simp [richTextItemWF] at h
  | obj fields =>
    rw [richTextItemWF] at h
    have hidx : ∀ v, Json.lookupField "type" fields = some v →
        Json.pyIndex (.obj fields) "type" = .ok v := by
      intro v hv
      simp [Json.pyIndex, hv]
    cases hty : Json.lookupField "type" fields with
    | none => rw [hty] at h; simp at h
    | some t =>
      rw [hty] at h
      cases t with
      | str s =>
        by_cases hs : s = "text"
        · subst hs
          cases htx : Json.lookupField "text" fields with
          | none => rw [htx] at h; simp at h
          | some tv =>
            rw [htx] at h
            cases tv with
            | obj tf =>
              have htxi : Json.pyIndex (.obj fields) "text" = .ok (.obj tf) := by
                simp [Json.pyIndex, htx]
              rw [RichTextContent.fromApiItem]
              rw [hidx (.str "text") hty]
              simp only [Bind.bind, Except.bind]
              rw [htxi]
              simp only [pyGetD_obj, Json.pyGet, isTextTagged, htxi,
                hidx (.str "text") hty, rtcOfTextItemD]
              rfl
            | null => simp at h
            | bool b => simp at h
            | num n => simp at h
            | str s2 => simp at h
            | arr xs => simp at h
        · rw [RichTextContent.fromApiItem]
          rw [hidx (.str s) hty]
          simp only [Bind.bind, Except.bind]
          have : isTextTagged (.obj fields) = false := by
            simp [isTextTagged, Json.pyIndex, hty, hs]
          rw [this]
          simp [hs, pure, Except.pure]
      | null => rw [RichTextContent.fromApiItem, hidx .null hty]; simp [isTextTagged, Json.pyIndex, hty, pure, Except.pure, Bind.bind, Except.bind]
      | bool b => rw [RichTextContent.fromApiItem, hidx (.bool b) hty]; simp [isTextTagged, Json.pyIndex, hty, pure, Except.pure, Bind.bind, Except.bind]
      | num n => rw [RichTextContent.fromApiItem, hidx (.num n) hty]; simp [isTextTagged, Json.pyIndex, hty, pure, Except.pure, Bind.bind, Except.bind]
      | arr xs => rw [RichTextContent.fromApiItem, hidx (.arr xs) hty]; simp [isTextTagged, Json.pyIndex, hty, pure, Except.pure, Bind.bind, Except.bind]
      | obj fs2 => rw [RichTextContent.fromApiItem, hidx (.obj fs2) hty]; simp [isTextTagged, Json.pyIndex, hty, pure, Except.pure, Bind.bind, Except.bind]

theorem fromApiLoop_wf : ∀ (items : List Json) (acc : List RichTextContent),
    (∀ it ∈ items, richTextItemWF it = true) →
    RichTextContent.fromApiLoop items acc
      = .ok (acc ++ (items.filter isTextTagged).map rtcOfTextItemD) := by
  intro items
  induction items with
  | nil => intro acc h; simp [RichTextContent.fromApiLoop]
  | cons item rest ih =>
    intro acc h
    rw [RichTextContent.fromApiLoop]
    simp only [Bind.bind, Except.bind]
    rw [fromApiItem_wf item (h item (by simp))]
    by_cases ht : isTextTagged item = true
    · rw [if_pos ht]
      simp [ih (acc ++ [rtcOfTextItemD item]) (fun it hit => h it (by simp [hit])),
        ht, List.filter_cons]
    · rw [if_neg ht]
      simp [ih acc (fun it hit => h it (by simp [hit])), ht, List.filter_cons]

theorem rtc_fromApi_wf (items : List Json)
    (h : ∀ it ∈ items, richTextItemWF it = true) :
    RichTextContent.fromApi (.arr items)
      = .ok ((items.filter isTextTagged).map rtcOfTextItemD) := by
  rw [RichTextContent.fromApi]
  simp only [Bind.bind, Except.bind, Json.asList]
  rw [fromApiLoop_wf items [] h]
  rfl

/-! ### Claim theorems -/


/-- Claim C1 (code_bug evidence): at the unsupported-block input of the
repository's own test suite, `Block.from_api` raises `ValueError` from the
`BlockType(...)` enum lookup instead of returning a base Block with
`block_type = UNSUPPORTED`. -/
theorem claim_C1_unknown_block_tag_raises :
    Block.fromApi c1Json = .error (.valueError "is not a valid BlockType") := by
  rfl

/-- Claim C2 (code_bug evidence): at the unsupported-property input of the
repository's own test suite, `PropertyValue.from_api` raises
`NotImplementedError` instead of returning a `GenericPropertyValue`. -/
theorem claim_C2_unknown_property_tag_raises :
    PropertyValue.fromApi (.str "test_id") c2Json
      = .error (.notImplementedError "Property type not implemented") := by
  rfl

/-- Claim C3: the depth-limited recursive fetch.  (1) a call at
`current_depth ≥ max_depth` returns an empty list without any transport
call and without error, for every stub and every fuel; (2) in every
successful fetch, the `children` attribute is assigned exactly to the
returned blocks with truthy `has_children`; (3) with `max_depth = 2` and a
chain of blocks reporting `has_children = true`, the repository fetches the
root and its child but never the grandchild: two transport calls, and the
depth-2 block keeps an empty children list. -/
theorem claim_C3_depth_limited_recursion :
    (∀ (client : Json → Json → Except PyError Json) (maxD : Nat) (pid : Json) (d fuel : Nat),
      maxD ≤ d → gpcStep client maxD fuel (.call pid d) = (.ok [], [])) ∧
    (∀ (client : Json → Json → Except PyError Json) (maxD fuel : Nat) (pid : Json) (d : Nat)
      (bs : List Block) (log : FetchLog),
      gpcStep client maxD fuel (.call pid d) = (.ok bs, log) →
      ∀ b ∈ bs, b.childrenSet = b.has_children.truthy) ∧
    gpcStep client3 2 10 (.call (.str "root") 0) =
      (.ok [paraBlock "b1" true "alpha" true [paraBlock "b2" true "beta" true []],
            paraBlock "b0" false "leaf" false []],
       [(.str "root", .null), (.str "b1", .null)]) :=
  ⟨fun client maxD pid d fuel hd => gpc_depth_guard client maxD pid d hd fuel,
   fun client maxD fuel pid d bs log h => gpc_call_flags client maxD fuel pid d bs log h,
   by rfl⟩

/-- Claim C3 witness: at `max_depth = 2` and `current_depth = 5` the fetch
returns an empty list with no transport calls. -/
theorem claim_C3_witness :
    gpcStep client3 2 7 (.call (.str "zzz") 5) = (.ok [], []) :=
  claim_C3_depth_limited_recursion.1 client3 2 (.str "zzz") 5 7 (by decide)

/-- Claim C4: cursor-based pagination.  (1) whenever the cursor chain from a
`None` cursor reaches a `has_more = false` response within the fuel bound
and every page maps to childless blocks, `get_page_content` returns exactly
the concatenation of the pages' blocks in first-seen order and issues one
children-fetch call per page, echoing each previous page's `next_cursor`;
(2) with the two-page stub (`has_more = true` with cursor `"c1"`, then
`has_more = false`), exactly two calls are made and both result sets are
concatenated in order. -/
theorem claim_C4_cursor_pagination :
    (∀ (client : Json → Json → Except PyError Json) (maxD : Nat) (pid : Json)
      (fspec : Nat) (pages : List Json) (fuel : Nat),
      0 < maxD →
      specCursorChain client pid fspec .null = some pages →
      plainPages pages →
      pages.length ≤ fuel →
      gpcStep client maxD (fuel + 2) (.call pid 0) =
        (.ok (pagesBlocks pages), chainLog pid .null pages)) ∧
    getPageContent client4 1 "root" 5 =
      (.ok [paraBlock "a1" false "first page" false [],
            paraBlock "a2" false "second page" false []],
       [(.str "root", .null), (.str "root", .str "c1")]) := by
  constructor
  · intro client maxD pid fspec pages fuel hmd hchain hplain hfuel
    rw [gpcStep, if_neg (by omega)]
    exact gpc_loop_pages client maxD 0 pid fspec .null pages hchain hplain fuel hfuel
  · rfl

/-- Claim C4 witness: the general pagination statement applied to the
two-page stub. -/
theorem claim_C4_witness :
    gpcStep client4 1 4 (.call (.str "root") 0) =
      (.ok (pagesBlocks [c4resp1, c4resp2]), chainLog (.str "root") .null [c4resp1, c4resp2]) :=
  claim_C4_cursor_pagination.1 client4 1 (.str "root") 2 [c4resp1, c4resp2] 2
    (by decide) (by rfl)
    (by
      intro resp hresp
      rcases List.mem_cons.mp hresp with rfl | hresp2
      · exact ⟨[paraJson "a1" false "first page"], rfl,
          [paraBlock "a1" false "first page" false []], rfl, by decide⟩
      · rcases List.mem_cons.mp hresp2 with rfl | hresp3
        · exact ⟨[paraJson "a2" false "second page"], rfl,
            [paraBlock "a2" false "second page" false []], rfl, by decide⟩
        · simp at hresp3)
    (by decide)

/-- Claim C5: `extract_id_from_url` agrees everywhere with the claim's
description (fail exactly on a non-`notion.so` host or an empty stripped
path, otherwise the query-stripped last hyphen segment), and on the
concrete examples. -/
theorem claim_C5_url_id_extraction :
    (∀ url : String, extractIdFromUrl url = extractIdSpec url) ∧
    extractIdFromUrl "https://www.notion.so/my-page-123456789" = .ok "123456789" ∧
    extractIdFromUrl "https://example.com/page" = .error (.valueError "Not a valid Notion URL") ∧
    extractIdFromUrl "https://notion.so/" = .error (.valueError "Could not extract ID from URL") :=
  ⟨extractId_eq, by rfl, by rfl, by rfl⟩

/-- Claim C6 counterexample: a block fresh out of `Block.from_api` does not
expose an (empty) children sequence — the dataclass declares no `children`
field, so reading the attribute raises `AttributeError`. -/
theorem claim_C6_counterexample :
    (Block.fromApi c6Json).bind Block.childrenAttr
        = .error (.attributeError "children") ∧
    (Block.fromApi c6Json).map Block.childrenSet = .ok false := by
  constructor <;> rfl

/-- Claim C6 (amended): `Block` declares no `children` field.  (1) every
block `Block.from_api` returns carries no children attribute (reading it
raises `AttributeError`); (2) the repository's recursive fetch assigns the
attribute exactly to the blocks it returns whose `has_children` is truthy
(blocks it never touches keep none).  The assembled forest is a tree of
independent values. -/
theorem claim_C6_children_attribute :
    (∀ (data : Json) (b : Block), Block.fromApi data = .ok b →
      b.childrenSet = false ∧ b.childrenAttr = .error (.attributeError "children")) ∧
    (∀ (client : Json → Json → Except PyError Json) (maxD fuel : Nat) (pid : Json) (d : Nat)
      (bs : List Block) (log : FetchLog),
      gpcStep client maxD fuel (.call pid d) = (.ok bs, log) →
      ∀ b ∈ bs, b.childrenSet = b.has_children.truthy) := by
  constructor
  · intro data b h
    have hset := block_fromApi_childrenSet data b h
    refine ⟨hset, ?_⟩
    cases b with
    | mk i o ct lt hc bt ar payload cs kids =>
      simp only [Block.childrenSet] at hset
      subst hset
      rfl
  · exact fun client maxD fuel pid d bs log h =>
      gpc_call_flags client maxD fuel pid d bs log h

/-- Claim C6 witness: the fresh-block statement applied to a concrete
paragraph input. -/
theorem claim_C6_witness :
    c6Block.childrenSet = false ∧
      c6Block.childrenAttr = .error (.attributeError "children") :=
  claim_C6_children_attribute.1 c6Json c6Block (by rfl)

/-- Claim C7 counterexample: `search_blocks` reports, inside a match
record's `children` field, a child whose content does not contain the query
— the field lists all immediate text/code children, not only child
matches. -/
theorem claim_C7_counterexample :
    NotionPageService.searchBlocks client7 3 10 "needle" "https://www.notion.so/my-page-root1"
        = .ok [⟨"paragraph", "needle here", none,
                some [⟨"paragraph", "nothing", none⟩]⟩] ∧
    strIn (strLower "needle") (strLower "nothing") = false := by
  constructor <;> rfl

/-- Claim C7 (amended): on well-formed fetched trees the search walk equals
its pure description — one record per text/code block whose lowered plain
text contains the lowered query, in pre-order, carrying the block's type and
full plain text, the language for code blocks, and a `children` field
listing all immediate text/code children (matching or not) whenever the
block has truthy `has_children` and a non-empty children list; and a match
three levels deep is found and reported with its full plain text. -/
theorem claim_C7_search_blocks :
    (∀ (q : String) (f : Nat) (c : SearchCall), wfStep f c = true →
      searchStep q f c = .ok (searchSpec q f c)) ∧
    searchStep "needle" 10 (.many [deepTree]) =
      .ok [⟨"paragraph", "the needle is here", none, none⟩] :=
  ⟨fun q f c h => searchStep_eq_spec q f c h, by rfl⟩

/-- Claim C7 witness: the equivalence applied to a concrete block. -/
theorem claim_C7_witness :
    searchStep "hi" 2 (.one smallBlock) = .ok (searchSpec "hi" 2 (.one smallBlock)) :=
  claim_C7_search_blocks.1 "hi" 2 (.one smallBlock) (by decide)

/-- Claim C8 counterexample: a 304 response — non-2xx — does not raise:
`raise_for_status` only raises for 4xx/5xx, so `_make_request` returns the
body. -/
theorem claim_C8_counterexample :
    makeRequest wire304 "GET" "/pages/x" .null .null = .ok (.obj [("cached", .bool true)]) := by
  rfl

/-- Claim C8 (amended): when an HTTP response carries a 4xx or 5xx status
the Transport Client raises an error carrying that status, and the
Repository propagates any client error unchanged: `get_page` forwards it,
and `get_page_content` stops at the failing call (exactly one call, no
retry, no partial tree). -/
theorem claim_C8_http_error_propagation :
    (∀ (wire : Wire) (method endpoint : String) (params data : Json) (status : Nat) (body : Json),
      wire method endpoint params data = (status, body) → 400 ≤ status → status < 600 →
      makeRequest wire method endpoint params data = .error (.httpError status)) ∧
    (∀ (clientGetPage : Json → Except PyError Json) (pid : Json) (e : PyError),
      clientGetPage pid = .error e → Repository.getPage clientGetPage pid = .error e) ∧
    (∀ (client : Json → Json → Except PyError Json) (maxD : Nat) (pid : Json) (e : PyError) (f : Nat),
      0 < maxD → client pid .null = .error e →
      gpcStep client maxD (f + 2) (.call pid 0) = (.error e, [(pid, .null)])) :=
  ⟨fun wire method endpoint params data status body hw h1 h2 =>
      makeRequest_raises wire method endpoint params data status body hw h1 h2,
   fun clientGetPage pid e h => getPage_error_prop clientGetPage pid e h,
   fun client maxD pid e f hmd hc => gpc_error_prop client maxD pid e f hmd hc⟩

/-- Claim C8 witness: a 500 answer is raised by the client and propagated
unchanged by the repository with a single children-fetch call. -/
theorem claim_C8_witness :
    makeRequest wire500 "GET" "/x" .null .null = .error (.httpError 500) ∧
    gpcStep clientErr500 3 2 (.call (.str "p") 0) =
      (.error (.httpError 500), [(.str "p", .null)]) :=
  ⟨claim_C8_http_error_propagation.1 wire500 "GET" "/x" .null .null 500 .null rfl
      (by decide) (by decide),
   claim_C8_http_error_propagation.2.2 clientErr500 3 (.str "p") (.httpError 500) 0
      (by decide) rfl⟩

/-- Claim C9: the synthetic paragraph with text segments `"First "` and
`"second"` maps to a `ParagraphBlock` whose plain text is exactly
`"First second"`. -/
theorem claim_C9_paragraph_round_trip :
    (Block.fromApi c9Json).map Block.isParagraphBlock = .ok true ∧
    (Block.fromApi c9Json).bind Block.getPlainText = .ok "First second" := by
  constructor <;> rfl

/-- Claim C10: over well-formed rich-text item lists (each item an object
with a `type`, text items carrying a `text` object), `RichTextContent.from_api`
returns exactly one `RichTextContent` per `"text"`-tagged item, in input
order, and drops every other item — so concatenated plain text owes nothing
to non-text items. -/
theorem claim_C10_rich_text_filter (items : List Json)
    (h : ∀ it ∈ items, richTextItemWF it = true) :
    RichTextContent.fromApi (.arr items)
      = .ok ((items.filter isTextTagged).map rtcOfTextItemD) :=
  rtc_fromApi_wf items h

/-- Claim C10 witness: the filter characterization at a four-item list
holding a mention, two text items and an equation. -/
theorem claim_C10_witness :
    RichTextContent.fromApi (.arr c10Items)
      = .ok ((c10Items.filter isTextTagged).map rtcOfTextItemD) :=
  claim_C10_rich_text_filter c10Items (by decide)
